import Mathlib

/-!
Verification of the Dynamisapi repository's generic helper patterns.

This file gives a shallow embedding in Lean 4 of:

* the identifier-or-path classification heuristic of
  `app/actions/onedrive_actions.py` (`_get_item_id_from_path_if_needed`) and
  `app/actions/sharepoint_actions.py` (`_get_item_id_from_path_if_needed_sp`);
* the bounded cursor-pagination loop shared (with only cosmetic differences)
  by `_sp_paged_request` (sharepoint_actions.py), `_onedrive_paged_request`
  (onedrive_actions.py) and `_email_paged_request` (correo_actions.py);
* the HTTP-status normalization of the dispatch endpoint
  (`app/api/routes/dynamics_actions.py`, `process_dynamic_action`, dict branch);
* the authenticated HTTP client
  (`app/shared/helpers/http_client.py`, `AuthenticatedHttpClient.request`
  and `_get_access_token`).

Python strings are Lean `String`, Python ints are Lean `Int` (`Nat` where the
source value is a count that only ever grows from 0, such as `page_count`),
`None`-able values are `Option`, and raised exceptions are explicit
constructors of result types.  The network is a parameter: an upstream is a
function from the number of requests already made to the response of the next
request.
-/

namespace DynamisApi

/-! ## Identifier-or-path resolution

Embedding of `_get_item_id_from_path_if_needed` (onedrive_actions.py, lines
91-120) and `_get_item_id_from_path_if_needed_sp` (sharepoint_actions.py).
Both compute the same heuristic

  is_likely_id = '!' in s
                 or (len(s) > 40 and '/' not in s and '.' not in s)
                 or s.startswith("driveItem_")

and return the input string unchanged when it holds; otherwise they resolve
the string as a path through a metadata lookup.  The metadata lookup (a
network call) is a parameter `metadataLookup`: `some itemId` models a
successful lookup whose payload carries an `id`, `none` models every failure
branch (error dict returned).
-/

/-- Python `c in s` for a single character `c`: character containment. -/
def hasChar (s : String) (c : Char) : Bool :=
  s.data.contains c

/-- The shared heuristic `is_likely_id` of both resolver helpers. -/
def is_likely_id (s : String) : Bool :=
  hasChar s '!' ||
    (decide (40 < s.data.length) && !hasChar s '/' && !hasChar s '.') ||
    "driveItem_".data.isPrefixOf s.data

/-- Outcome of the resolver: the input returned unchanged as an assumed ID,
an ID obtained from the path-metadata lookup, or a failed lookup (the error
dict return). -/
inductive ResolveOutcome where
  | assumedId (itemId : String)
  | resolvedId (itemId : String)
  | lookupFailed (pathTried : String)
  deriving DecidableEq

/-- `_get_item_id_from_path_if_needed` (onedrive_actions.py): if the
heuristic classifies the string as an ID it is returned unchanged, otherwise
the path is resolved via `_internal_onedrive_get_item_metadata`. -/
def get_item_id_from_path_if_needed
    (metadataLookup : String → Option String) (item_path_or_id : String) :
    ResolveOutcome :=
  if is_likely_id item_path_or_id then
    ResolveOutcome.assumedId item_path_or_id
  else
    match metadataLookup item_path_or_id with
    | some itemId => ResolveOutcome.resolvedId itemId
    | none => ResolveOutcome.lookupFailed item_path_or_id

/-- `_get_item_id_from_path_if_needed_sp` (sharepoint_actions.py): same
heuristic, path resolved via `get_file_metadata`. -/
def get_item_id_from_path_if_needed_sp
    (metadataLookup : String → Option String) (item_path_or_id : String) :
    ResolveOutcome :=
  if is_likely_id item_path_or_id then
    ResolveOutcome.assumedId item_path_or_id
  else
    match metadataLookup item_path_or_id with
    | some itemId => ResolveOutcome.resolvedId itemId
    | none => ResolveOutcome.lookupFailed item_path_or_id

/-! ## Dispatch endpoint status normalization

Embedding of the dict-result branch of `process_dynamic_action`
(app/api/routes/dynamics_actions.py):

    if result.get("status") == "error":
        error_status_code = result.get("http_status", 500)
        if 200 <= error_status_code < 300: error_status_code = 500
        ...serve error_status_code...
    else:
        success_status_code = result.get("http_status", 200)
        if not (200 <= success_status_code < 300): success_status_code = 200
        ...serve success_status_code...
-/

/-- The two fields of a handler result dictionary that the dispatch endpoint
inspects: `result.get("status")` and `result.get("http_status")`. -/
structure HandlerResult where
  status : Option String
  http_status : Option Int
  deriving DecidableEq

/-- HTTP status the dispatch endpoint serves for a dict result. -/
def normalize_http_status (r : HandlerResult) : Int :=
  if r.status = some "error" then
    if 200 ≤ r.http_status.getD 500 ∧ r.http_status.getD 500 < 300 then 500
    else r.http_status.getD 500
  else
    if 200 ≤ r.http_status.getD 200 ∧ r.http_status.getD 200 < 300 then
      r.http_status.getD 200
    else 200

/-! ## Authenticated HTTP client

Embedding of `AuthenticatedHttpClient` (app/shared/helpers/http_client.py).
The credential is a parameter `getToken`; `none` models every exception
branch of `_get_access_token` (credential unavailable, authentication error,
unexpected error) as well as its absence.  Headers are association lists with
first-match lookup, matching Python dict key semantics.
-/

/-- `AuthenticatedHttpClient._get_access_token`: an empty scope list yields
no token; otherwise the credential is consulted. -/
def get_access_token (getToken : List String → Option String)
    (scope : List String) : Option String :=
  if scope.isEmpty then none else getToken scope

/-- Python dict assignment `hs[k] = v` for the purpose of key lookup. -/
def setHeader (hs : List (String × String)) (k v : String) :
    List (String × String) :=
  (k, v) :: hs.filter (fun p => !(p.1 == k))

/-- Python dict lookup `hs.get(k)`. -/
def headerLookup (hs : List (String × String)) (k : String) : Option String :=
  (hs.find? (fun p => p.1 == k)).map (fun p => p.2)

/-- Outcome of `AuthenticatedHttpClient.request` up to the point the request
is handed to the underlying session: either `raise ValueError` (no request
sent), or a request is sent with the given headers. -/
inductive RequestOutcome where
  | valueErrorRaised
  | sent (headers : List (String × String))
  deriving DecidableEq

/-- `AuthenticatedHttpClient.request`: obtain the token (a falsy token,
`None` or the empty string, raises `ValueError`); copy the caller headers,
overwrite `Authorization` with the bearer token, default `Content-Type` when
a body is present, then send. -/
def client_request (getToken : List String → Option String)
    (scope : List String) (callerHeaders : List (String × String))
    (hasBody : Bool) : RequestOutcome :=
  match get_access_token getToken scope with
  | none => RequestOutcome.valueErrorRaised
  | some tok =>
    if tok = "" then RequestOutcome.valueErrorRaised
    else
      let h1 := setHeader callerHeaders "Authorization" ("Bearer " ++ tok)
      let h2 :=
        if hasBody && (headerLookup h1 "Content-Type").isNone then
          setHeader h1 "Content-Type" "application/json"
        else h1
      RequestOutcome.sent h2

/-! ## Bounded cursor pagination

Embedding of `_sp_paged_request` (sharepoint_actions.py), with
`_onedrive_paged_request` (onedrive_actions.py) and `_email_paged_request`
(correo_actions.py) as instances — the three loop bodies are line-for-line
the same, except that the OneDrive cap `max_items_total` is a plain int
(embedded as `some`) where the other two take `Optional[int]`.

The Python loop is

    while current_url and (max_items_total is None
            or len(all_items) < max_items_total) and page_count < max_pages:
        page_count += 1
        is_first_call = (page_count == 1)  [onedrive/email also test
                                            current_url == url_base here]
        params = query_api_params_initial if is_first_call
                 and current_url == url_base else None
        response = client.get(url=current_url, scope=scope, params=params)
        response_data = response.json()
        page_items = response_data.get('value', [])
        if not isinstance(page_items, list): break
        for item in page_items:
            if max_items_total is None or len(all_items) < max_items_total:
                all_items.append(item)
            else: break
        current_url = response_data.get('@odata.nextLink')
        if not current_url or (max_items_total is not None
                and len(all_items) >= max_items_total): break
    return {"status": "success", ..., "total_retrieved": len(all_items),
            "pages_processed": page_count}

wrapped in try/except whose handler returns a status-"error" dict carrying
the upstream HTTP status code (500 for non-HTTP exceptions) and message, and
no item list.

`page_count` starts at 0 and increases by exactly 1 per iteration, so the
conjunct `page_count < max_pages` of the guard holds iff
`(max_pages - page_count).toNat` is nonzero; the embedding recurses
structurally on that quantity as `fuel` (the entry point passes
`max_pages.toNat`, and the loop below keeps `fuel = max_pages - page_count`
by decrementing it as `page_count` increments).  All other guard conjuncts
are checked explicitly, so the embedding is total and step-for-step faithful
to the source loop.  Python string truthiness makes both an absent
`@odata.nextLink` and an empty-string one falsy, which `urlTruthy` mirrors.
-/

/-- The JSON `value` field of a page body: either a JSON list of items, or
present but not a list (the `isinstance` failure case). -/
inductive ValueField (α : Type) where
  | items (batch : List α)
  | notList
  deriving DecidableEq

/-- The two fields of an upstream response body that the loop reads. -/
structure PageBody (α : Type) where
  value : Option (ValueField α)
  nextLink : Option String
  deriving DecidableEq

/-- Upstream response to one GET: a parsed 2xx body, an HTTP error raised by
`raise_for_status` (carrying the upstream status code and message), or any
other exception raised by the transport / JSON parsing. -/
inductive UpstreamResult (α : Type) where
  | ok (body : PageBody α)
  | httpError (status : Int) (details : String)
  | transportError (details : String)
  deriving DecidableEq

/-- One issued GET: the URL passed to `client.get` and the `params`
argument. -/
structure PageRequest (Q : Type) where
  url : String
  params : Option Q
  deriving DecidableEq

/-- Return value of the paged helpers: the success dict (item list,
`total_retrieved`, `pages_processed`) or the error dict built by the
`_handle_*_api_error` helper (HTTP status and message, no items). -/
inductive PagedResult (α : Type) where
  | success (items : List α) (totalRetrieved : Nat) (pagesProcessed : Nat)
  | error (httpStatus : Int) (details : String)
  deriving DecidableEq

/-- Item list of a result (an error dict carries none). -/
def PagedResult.items {α : Type} : PagedResult α → List α
  | .success l _ _ => l
  | .error _ _ => []

/-- `pages_processed` of a result (an error dict carries none; read 0). -/
def PagedResult.pages {α : Type} : PagedResult α → Nat
  | .success _ _ p => p
  | .error _ _ => 0

/-- Python truthiness of `current_url`: `None` and `""` are falsy. -/
def urlTruthy : Option String → Bool
  | none => false
  | some s => !(s == "")

/-- Negation of the item-cap guard conjunct
`max_items_total is None or len(all_items) < max_items_total`. -/
def capBlocked {α : Type} (maxItems : Option Int) (acc : List α) : Bool :=
  match maxItems with
  | none => false
  | some n => !(decide ((acc.length : Int) < n))

/-- The inner `for item in page_items` loop: append one item at a time while
the cap allows, else break. -/
def appendCapped {α : Type} (maxItems : Option Int) :
    List α → List α → List α
  | acc, [] => acc
  | acc, x :: xs =>
    match maxItems with
    | none => appendCapped none (acc ++ [x]) xs
    | some n =>
      if (acc.length : Int) < n then appendCapped (some n) (acc ++ [x]) xs
      else acc

/-- The `params` argument of the request issued at a given `page_count`
(`page_count` here is the value before the increment, i.e. the number of
requests already made). -/
def pageParams {Q : Type} (qInit : Q) (urlBase currentUrl : String)
    (pageCount : Nat) : Option Q :=
  if pageCount + 1 = 1 ∧ currentUrl = urlBase then some qInit else none

/-- `page_items = response_data.get('value', [])`. -/
def bodyBatch {α : Type} (b : PageBody α) : ValueField α :=
  b.value.getD (ValueField.items [])

/-- The shared pagination loop.  State: remaining page budget `fuel`
(`= max_pages - page_count`, see the section comment), accumulator
`all_items`, `current_url`, `page_count`, and the list of requests issued so
far (the observable trace of `client.get` calls). -/
def pagedLoopAux {α Q : Type} (upstream : Nat → UpstreamResult α)
    (urlBase : String) (qInit : Q) (maxItems : Option Int) :
    Nat → List α → Option String → Nat → List (PageRequest Q) →
      PagedResult α × List (PageRequest Q)
  | 0, acc, _, pageCount, reqs =>
    (PagedResult.success acc acc.length pageCount, reqs)
  | _ + 1, acc, none, pageCount, reqs =>
    (PagedResult.success acc acc.length pageCount, reqs)
  | fuel + 1, acc, some c, pageCount, reqs =>
    if c = "" then (PagedResult.success acc acc.length pageCount, reqs)
    else if capBlocked maxItems acc then
      (PagedResult.success acc acc.length pageCount, reqs)
    else
      let req : PageRequest Q := ⟨c, pageParams qInit urlBase c pageCount⟩
      match upstream pageCount with
      | .httpError st d => (PagedResult.error st d, reqs ++ [req])
      | .transportError d => (PagedResult.error 500 d, reqs ++ [req])
      | .ok body =>
        match bodyBatch body with
        | .notList =>
          (PagedResult.success acc acc.length (pageCount + 1), reqs ++ [req])
        | .items batch =>
          let acc2 := appendCapped maxItems acc batch
          if !urlTruthy body.nextLink || capBlocked maxItems acc2 then
            (PagedResult.success acc2 acc2.length (pageCount + 1),
              reqs ++ [req])
          else
            pagedLoopAux upstream urlBase qInit maxItems fuel acc2
              body.nextLink (pageCount + 1) (reqs ++ [req])

/-- `_sp_paged_request` (sharepoint_actions.py): run the loop from the start
URL with empty accumulator; `max_pages_to_fetch` is the `MAX_PAGING_PAGES`
setting. -/
def sp_paged_request {α Q : Type} (upstream : Nat → UpstreamResult α)
    (url_base : String) (query_api_params_initial : Q)
    (max_items_total : Option Int) (max_pages_to_fetch : Int) :
    PagedResult α × List (PageRequest Q) :=
  pagedLoopAux upstream url_base query_api_params_initial max_items_total
    max_pages_to_fetch.toNat [] (some url_base) 0 []

/-- `_onedrive_paged_request` (onedrive_actions.py): identical loop with a
mandatory item cap. -/
def onedrive_paged_request {α Q : Type} (upstream : Nat → UpstreamResult α)
    (url_base : String) (query_api_params_initial : Q)
    (max_items_total : Int) (max_pages : Int) :
    PagedResult α × List (PageRequest Q) :=
  pagedLoopAux upstream url_base query_api_params_initial
    (some max_items_total) max_pages.toNat [] (some url_base) 0 []

/-- `_email_paged_request` (correo_actions.py): identical loop. -/
def email_paged_request {α Q : Type} (upstream : Nat → UpstreamResult α)
    (url_base : String) (query_api_params_initial : Q)
    (max_items_total : Option Int) (max_pages_to_fetch : Int) :
    PagedResult α × List (PageRequest Q) :=
  pagedLoopAux upstream url_base query_api_params_initial max_items_total
    max_pages_to_fetch.toNat [] (some url_base) 0 []

/-- The item list the loop ends with when it stops right after its first
page: the first page's batch (empty when `value` is absent or not a list),
item-capped. -/
def firstPageItems {α : Type} (maxItems : Option Int) (b : PageBody α) :
    List α :=
  match bodyBatch b with
  | .items batch => appendCapped maxItems [] batch
  | .notList => []

/-- The request trace respects the server cursors: every request after the
first goes to the URL that the previous response returned verbatim as its
next-cursor. -/
def CursorChain {α Q : Type} (upstream : Nat → UpstreamResult α)
    (reqs : List (PageRequest Q)) : Prop :=
  ∀ i req2, reqs.get? (i + 1) = some req2 →
    ∃ b, upstream i = UpstreamResult.ok b ∧ b.nextLink = some req2.url

/-! ### Concrete upstreams used by the witnesses and counterexamples -/

/-- Metadata lookup that always fails (its value is irrelevant to the
classification step under scrutiny). -/
def noLookup : String → Option String := fun _ => none

/-- Upstream returning a single page `[1, 2, 3]` with no cursor. -/
def upstreamOnePage : Nat → UpstreamResult Nat := fun _ =>
  UpstreamResult.ok ⟨some (ValueField.items [1, 2, 3]), none⟩

/-- Upstream whose first response body has no `value` field at all but does
carry a cursor; the second page has items and no cursor. -/
def upstreamNoValueField : Nat → UpstreamResult Nat
  | 0 => UpstreamResult.ok ⟨none, some "u2"⟩
  | _ + 1 => UpstreamResult.ok ⟨some (ValueField.items [7]), none⟩

/-- Upstream whose responses carry a non-list `value` and a cursor. -/
def upstreamNotList : Nat → UpstreamResult Nat := fun _ =>
  UpstreamResult.ok ⟨some ValueField.notList, some "next"⟩

/-- Upstream that always fails with HTTP 403. -/
def upstreamDenied : Nat → UpstreamResult Nat := fun _ =>
  UpstreamResult.httpError 403 "Access denied"

/-- Credential that always produces a token. -/
def someTokenProvider : List String → Option String := fun _ => some "tok123"

/-! ## Pagination lemmas -/

/-- The OneDrive helper is the SharePoint helper at a mandatory cap. -/
theorem onedrive_paged_request_eq_sp {α Q : Type}
    (upstream : Nat → UpstreamResult α) (url_base : String) (qInit : Q)
    (max_items_total : Int) (max_pages : Int) :
    onedrive_paged_request upstream url_base qInit max_items_total max_pages =
      sp_paged_request upstream url_base qInit (some max_items_total)
        max_pages := rfl

/-- The email helper coincides with the SharePoint helper. -/
theorem email_paged_request_eq_sp {α Q : Type}
    (upstream : Nat → UpstreamResult α) (url_base : String) (qInit : Q)
    (max_items_total : Option Int) (max_pages : Int) :
    email_paged_request upstream url_base qInit max_items_total max_pages =
      sp_paged_request upstream url_base qInit max_items_total max_pages :=
  rfl

/-- Unfolding of the SharePoint entry point into the loop. -/
theorem sp_paged_request_def {α Q : Type}
    (upstream : Nat → UpstreamResult α) (urlBase : String) (qInit : Q)
    (maxItems : Option Int) (maxPages : Int) :
    sp_paged_request upstream urlBase qInit maxItems maxPages =
      pagedLoopAux upstream urlBase qInit maxItems maxPages.toNat []
        (some urlBase) 0 [] := rfl

/-- Unfolding of the email entry point into the loop. -/
theorem email_paged_request_def {α Q : Type}
    (upstream : Nat → UpstreamResult α) (urlBase : String) (qInit : Q)
    (maxItems : Option Int) (maxPages : Int) :
    email_paged_request upstream urlBase qInit maxItems maxPages =
      pagedLoopAux upstream urlBase qInit maxItems maxPages.toNat []
        (some urlBase) 0 [] := rfl

/-- Unfolding of the OneDrive entry point into the loop. -/
theorem onedrive_paged_request_def {α Q : Type}
    (upstream : Nat → UpstreamResult α) (urlBase : String) (qInit : Q)
    (maxItems : Int) (maxPages : Int) :
    onedrive_paged_request upstream urlBase qInit maxItems maxPages =
      pagedLoopAux upstream urlBase qInit (some maxItems) maxPages.toNat []
        (some urlBase) 0 [] := rfl

/-- Appending under a cap never exceeds the cap. -/
theorem appendCapped_length_le {α : Type} (n : Int) :
    ∀ (batch acc : List α), (acc.length : Int) ≤ n →
      (((appendCapped (some n) acc batch).length : Int)) ≤ n := by
  intro batch
  induction batch with
  | nil => intro acc h; simpa [appendCapped] using h
  | cons x xs ih =>
    intro acc h
    simp only [appendCapped]
    by_cases hlt : ((acc.length : Int) < n)
    · rw [if_pos hlt]
      refine ih (acc ++ [x]) ?_
      simp only [List.length_append, List.length_singleton]
      push_cast
      omega
    · rw [if_neg hlt]; exact h

/-- Appending under a cap takes a prefix of the batch: exactly the room
left. -/
theorem appendCapped_some_eq_take {α : Type} (n : Int) :
    ∀ (batch acc : List α), (acc.length : Int) ≤ n →
      appendCapped (some n) acc batch =
        acc ++ batch.take (n - acc.length).toNat := by
  intro batch
  induction batch with
  | nil => intro acc h; simp [appendCapped]
  | cons x xs ih =>
    intro acc h
    simp only [appendCapped]
    by_cases hlt : ((acc.length : Int) < n)
    · have hlen : (((acc ++ [x]).length : Int)) ≤ n := by
        simp only [List.length_append, List.length_singleton]
        push_cast
        omega
      rw [if_pos hlt, ih (acc ++ [x]) hlen]
      have h1 : (n - (acc.length : Int)).toNat =
          (n - (((acc ++ [x]).length : Int))).toNat + 1 := by
        simp only [List.length_append, List.length_singleton]
        push_cast
        omega
      rw [h1, List.take_succ_cons, List.append_assoc, List.singleton_append]
    · rw [if_neg hlt]
      have h0 : (n - (acc.length : Int)).toNat = 0 := by omega
      rw [h0, List.take_zero, List.append_nil]

/-- From an empty accumulator, a cap of `n` keeps the first
`n.toNat` items of the batch. -/
theorem appendCapped_nil_take {α : Type} (n : Int) (batch : List α) :
    appendCapped (some n) ([] : List α) batch = batch.take n.toNat := by
  by_cases hn : (0 : Int) ≤ n
  · have := appendCapped_some_eq_take n batch ([] : List α) (by simpa using hn)
    simpa using this
  · cases batch with
    | nil => simp [appendCapped]
    | cons x xs =>
      simp only [appendCapped]
      have hcond : ¬((((([] : List α)).length : Int)) < n) := by
        simp only [List.length_nil]
        omega
      rw [if_neg hcond]
      have h0 : n.toNat = 0 := by omega
      rw [h0, List.take_zero]

/-- With no cap, the whole batch is appended. -/
theorem appendCapped_none {α : Type} :
    ∀ (batch acc : List α), appendCapped none acc batch = acc ++ batch := by
  intro batch
  induction batch with
  | nil => intro acc; simp [appendCapped]
  | cons x xs ih =>
    intro acc
    simp only [appendCapped]
    rw [ih (acc ++ [x]), List.append_assoc, List.singleton_append]

/-- Loop invariant for the item cap: starting within the cap, the returned
item list stays within the cap (an error result carries no items). -/
theorem pagedLoopAux_items_le {α Q : Type} (upstream : Nat → UpstreamResult α)
    (urlBase : String) (qInit : Q) (n : Int) :
    ∀ (fuel : Nat) (acc : List α) (cur : Option String) (pageCount : Nat)
      (reqs : List (PageRequest Q)), (acc.length : Int) ≤ n →
      (((pagedLoopAux upstream urlBase qInit (some n) fuel acc cur pageCount
        reqs).1.items.length : Int)) ≤ n := by
  intro fuel
  induction fuel with
  | zero =>
    intro acc cur pageCount reqs h
    simpa [pagedLoopAux, PagedResult.items] using h
  | succ fuel ih =>
    intro acc cur pageCount reqs h
    match cur with
    | none => simpa [pagedLoopAux, PagedResult.items] using h
    | some c =>
      simp only [pagedLoopAux]
      by_cases hc : c = ""
      · rw [if_pos hc]; simpa [PagedResult.items] using h
      · rw [if_neg hc]
        by_cases hcap : capBlocked (some n) acc = true
        · rw [if_pos hcap]; simpa [PagedResult.items] using h
        · rw [if_neg hcap]
          split
          · simp only [PagedResult.items]; simp; omega
          · simp only [PagedResult.items]; simp; omega
          · rename_i body heq
            split
            · simpa [PagedResult.items] using h
            · rename_i batch hbb
              have hlen := appendCapped_length_le n batch acc h
              split
              · simpa [PagedResult.items] using hlen
              · exact ih _ _ _ _ hlen

/-- Loop invariant for the page cap: the loop issues at most `fuel` further
requests, and `pages_processed` grows by at most `fuel`. -/
theorem pagedLoopAux_bounds {α Q : Type} (upstream : Nat → UpstreamResult α)
    (urlBase : String) (qInit : Q) (maxItems : Option Int) :
    ∀ (fuel : Nat) (acc : List α) (cur : Option String) (pageCount : Nat)
      (reqs : List (PageRequest Q)),
      (pagedLoopAux upstream urlBase qInit maxItems fuel acc cur pageCount
        reqs).2.length ≤ reqs.length + fuel ∧
      (pagedLoopAux upstream urlBase qInit maxItems fuel acc cur pageCount
        reqs).1.pages ≤ pageCount + fuel := by
  intro fuel
  induction fuel with
  | zero =>
    intro acc cur pageCount reqs
    simp [pagedLoopAux, PagedResult.pages]
  | succ fuel ih =>
    intro acc cur pageCount reqs
    match cur with
    | none => refine ⟨?_, ?_⟩ <;> simp [pagedLoopAux, PagedResult.pages]
    | some c =>
      simp only [pagedLoopAux]
      by_cases hc : c = ""
      · rw [if_pos hc]
        refine ⟨?_, ?_⟩ <;> simp [PagedResult.pages]
      · rw [if_neg hc]
        by_cases hcap : capBlocked maxItems acc = true
        · rw [if_pos hcap]
          refine ⟨?_, ?_⟩ <;> simp [PagedResult.pages]
        · rw [if_neg hcap]
          split
          · refine ⟨?_, ?_⟩ <;> simp [PagedResult.pages]
          · refine ⟨?_, ?_⟩ <;> simp [PagedResult.pages]
          · rename_i body heq
            split
            · refine ⟨?_, ?_⟩ <;> simp [PagedResult.pages]
            · rename_i batch hbb
              split
              · refine ⟨?_, ?_⟩ <;> simp [PagedResult.pages]
              · have := ih (appendCapped maxItems acc batch) body.nextLink
                  (pageCount + 1) (reqs ++ [⟨c, pageParams qInit urlBase c
                    pageCount⟩])
                simp only [List.length_append, List.length_singleton] at this
                exact ⟨by omega, by omega⟩

/-- Exactly one request per loop iteration: on a success result the number
of issued requests equals `pages_processed`. -/
theorem pagedLoopAux_reqs_eq_pages {α Q : Type}
    (upstream : Nat → UpstreamResult α) (urlBase : String) (qInit : Q)
    (maxItems : Option Int) :
    ∀ (fuel : Nat) (acc : List α) (cur : Option String) (pageCount : Nat)
      (reqs : List (PageRequest Q)), reqs.length = pageCount →
      ∀ its tot p,
        (pagedLoopAux upstream urlBase qInit maxItems fuel acc cur pageCount
          reqs).1 = PagedResult.success its tot p →
        (pagedLoopAux upstream urlBase qInit maxItems fuel acc cur pageCount
          reqs).2.length = p := by
  intro fuel
  induction fuel with
  | zero =>
    intro acc cur pageCount reqs h its tot p hp
    simp only [pagedLoopAux] at hp ⊢
    cases hp
    exact h
  | succ fuel ih =>
    intro acc cur pageCount reqs h
    match cur with
    | none =>
      intro its tot p hp
      simp only [pagedLoopAux] at hp ⊢
      cases hp
      exact h
    | some c =>
      simp only [pagedLoopAux]
      by_cases hc : c = ""
      · rw [if_pos hc]
        intro its tot p hp
        cases hp
        exact h
      · rw [if_neg hc]
        by_cases hcap : capBlocked maxItems acc = true
        · rw [if_pos hcap]
          intro its tot p hp
          cases hp
          exact h
        · rw [if_neg hcap]
          split
          · intro its tot p hp; exact absurd hp (by simp)
          · intro its tot p hp; exact absurd hp (by simp)
          · rename_i body heq
            split
            · intro its tot p hp
              cases hp
              simp [h]
            · rename_i batch hbb
              split
              · intro its tot p hp
                cases hp
                simp [h]
              · exact ih _ _ _ _ (by simp [h])

/-- The request trace only grows: the result trace extends the trace so
far. -/
theorem pagedLoopAux_reqs_extend {α Q : Type}
    (upstream : Nat → UpstreamResult α) (urlBase : String) (qInit : Q)
    (maxItems : Option Int) :
    ∀ (fuel : Nat) (acc : List α) (cur : Option String) (pageCount : Nat)
      (reqs : List (PageRequest Q)), ∃ t,
      (pagedLoopAux upstream urlBase qInit maxItems fuel acc cur pageCount
        reqs).2 = reqs ++ t := by
  intro fuel
  induction fuel with
  | zero =>
    intro acc cur pageCount reqs
    exact ⟨[], by simp [pagedLoopAux]⟩
  | succ fuel ih =>
    intro acc cur pageCount reqs
    match cur with
    | none => exact ⟨[], by simp [pagedLoopAux]⟩
    | some c =>
      simp only [pagedLoopAux]
      by_cases hc : c = ""
      · rw [if_pos hc]; exact ⟨[], by simp⟩
      · rw [if_neg hc]
        by_cases hcap : capBlocked maxItems acc = true
        · rw [if_pos hcap]; exact ⟨[], by simp⟩
        · rw [if_neg hcap]
          split
          · exact ⟨[⟨c, pageParams qInit urlBase c pageCount⟩], rfl⟩
          · exact ⟨[⟨c, pageParams qInit urlBase c pageCount⟩], rfl⟩
          · rename_i body heq
            split
            · exact ⟨[⟨c, pageParams qInit urlBase c pageCount⟩], rfl⟩
            · rename_i batch hbb
              split
              · exact ⟨[⟨c, pageParams qInit urlBase c pageCount⟩], rfl⟩
              · obtain ⟨t, ht⟩ := ih (appendCapped maxItems acc batch)
                  body.nextLink (pageCount + 1)
                  (reqs ++ [⟨c, pageParams qInit urlBase c pageCount⟩])
                exact ⟨⟨c, pageParams qInit urlBase c pageCount⟩ :: t,
                  by rw [ht, List.append_assoc, List.singleton_append]⟩

/-- A list equal to itself with a suffix appended has an empty suffix. -/
theorem eq_nil_of_self_eq_append {β : Type} {l t : List β}
    (h : l = l ++ t) : t = [] := by
  have hl := congrArg List.length h
  simp only [List.length_append] at hl
  have h0 : t.length = 0 := by omega
  exact List.length_eq_zero.mp h0

/-- Every request recorded after at least one page has `params = None`. -/
theorem pagedLoopAux_ext_params_none {α Q : Type}
    (upstream : Nat → UpstreamResult α) (urlBase : String) (qInit : Q)
    (maxItems : Option Int) :
    ∀ (fuel : Nat) (acc : List α) (cur : Option String) (pageCount : Nat)
      (reqs t : List (PageRequest Q)), 1 ≤ pageCount →
      (pagedLoopAux upstream urlBase qInit maxItems fuel acc cur pageCount
        reqs).2 = reqs ++ t →
      ∀ req ∈ t, req.params = none := by
  intro fuel
  induction fuel with
  | zero =>
    intro acc cur pageCount reqs t hpc ht req hreq
    simp only [pagedLoopAux] at ht
    obtain rfl := eq_nil_of_self_eq_append ht
    simp at hreq
  | succ fuel ih =>
    intro acc cur pageCount reqs t hpc
    match cur with
    | none =>
      intro ht req hreq
      simp only [pagedLoopAux] at ht
      obtain rfl := eq_nil_of_self_eq_append ht
      simp at hreq
    | some c =>
      simp only [pagedLoopAux]
      by_cases hc : c = ""
      · rw [if_pos hc]
        intro ht req hreq
        obtain rfl := eq_nil_of_self_eq_append ht
        simp at hreq
      · rw [if_neg hc]
        by_cases hcap : capBlocked maxItems acc = true
        · rw [if_pos hcap]
          intro ht req hreq
          obtain rfl := eq_nil_of_self_eq_append ht
          simp at hreq
        · rw [if_neg hcap]
          have hparams : pageParams qInit urlBase c pageCount = (none : Option Q) := by
            unfold pageParams
            rw [if_neg]
            rintro ⟨h1, _⟩
            omega
          split
          · intro ht req hreq
            obtain rfl : t = [⟨c, pageParams qInit urlBase c pageCount⟩] :=
              (List.append_cancel_left ht).symm
            obtain rfl := List.mem_singleton.mp hreq
            simpa using hparams
          · intro ht req hreq
            obtain rfl : t = [⟨c, pageParams qInit urlBase c pageCount⟩] :=
              (List.append_cancel_left ht).symm
            obtain rfl := List.mem_singleton.mp hreq
            simpa using hparams
          · rename_i body heq
            split
            · intro ht req hreq
              obtain rfl : t = [⟨c, pageParams qInit urlBase c pageCount⟩] :=
                (List.append_cancel_left ht).symm
              obtain rfl := List.mem_singleton.mp hreq
              simpa using hparams
            · rename_i batch hbb
              split
              · intro ht req hreq
                obtain rfl : t = [⟨c, pageParams qInit urlBase c pageCount⟩] :=
                  (List.append_cancel_left ht).symm
                obtain rfl := List.mem_singleton.mp hreq
                simpa using hparams
              · intro ht req hreq
                obtain ⟨t2, ht2⟩ := pagedLoopAux_reqs_extend upstream urlBase
                  qInit maxItems fuel (appendCapped maxItems acc batch)
                  body.nextLink (pageCount + 1)
                  (reqs ++ [⟨c, pageParams qInit urlBase c pageCount⟩])
                have heqt : t = ⟨c, pageParams qInit urlBase c pageCount⟩ :: t2 := by
                  have := ht2.symm.trans ht
                  rw [List.append_assoc, List.singleton_append] at this
                  exact (List.append_cancel_left this).symm
                subst heqt
                rcases List.mem_cons.mp hreq with rfl | hmem
                · simpa using hparams
                · exact ih _ _ (pageCount + 1) _ t2 (by omega) ht2 req hmem

/-- Whenever the loop guard admits one more iteration, a request to the
current cursor is issued and recorded. -/
theorem pagedLoopAux_issues_request {α Q : Type}
    (upstream : Nat → UpstreamResult α) (urlBase : String) (qInit : Q)
    (maxItems : Option Int) (fuel : Nat) (acc : List α) (c : String)
    (pageCount : Nat) (reqs : List (PageRequest Q))
    (hc : c ≠ "") (hcap : capBlocked maxItems acc = false) :
    ∃ rest, (pagedLoopAux upstream urlBase qInit maxItems (fuel + 1) acc
      (some c) pageCount reqs).2 =
      reqs ++ ⟨c, pageParams qInit urlBase c pageCount⟩ :: rest := by
  simp only [pagedLoopAux]
  rw [if_neg hc, if_neg (by simp [hcap])]
  split
  · exact ⟨[], rfl⟩
  · exact ⟨[], rfl⟩
  · rename_i body heq
    split
    · exact ⟨[], rfl⟩
    · rename_i batch hbb
      split
      · exact ⟨[], rfl⟩
      · obtain ⟨t, ht⟩ := pagedLoopAux_reqs_extend upstream urlBase qInit
          maxItems fuel (appendCapped maxItems acc batch) body.nextLink
          (pageCount + 1)
          (reqs ++ [⟨c, pageParams qInit urlBase c pageCount⟩])
        exact ⟨t, by rw [ht, List.append_assoc, List.singleton_append]⟩

/-- Appending a request whose URL came from the previous response preserves
the cursor chain. -/
theorem cursorChain_extend {α Q : Type} (upstream : Nat → UpstreamResult α)
    (reqs : List (PageRequest Q)) (c : String) (ps : Option Q)
    (hchain : CursorChain upstream reqs)
    (hcur : 1 ≤ reqs.length →
      ∃ b, upstream (reqs.length - 1) = UpstreamResult.ok b ∧
        b.nextLink = some c) :
    CursorChain upstream (reqs ++ [⟨c, ps⟩]) := by
  intro i req2 hget
  by_cases hi : i + 1 < reqs.length
  · rw [List.get?_append hi] at hget
    exact hchain i req2 hget
  · have hle : reqs.length ≤ i + 1 := Nat.le_of_not_lt hi
    rw [List.get?_append_right hle] at hget
    rcases hk : i + 1 - reqs.length with _ | k
    · rw [hk] at hget
      obtain rfl : (⟨c, ps⟩ : PageRequest Q) = req2 := by simpa using hget
      have h1 : 1 ≤ reqs.length := by omega
      obtain ⟨b, hb, hl⟩ := hcur h1
      have hi1 : i = reqs.length - 1 := by omega
      refine ⟨b, ?_, hl⟩
      rw [hi1]
      exact hb
    · rw [hk] at hget
      simp at hget

/-- Loop invariant: when the trace length matches `page_count` and the
current cursor came verbatim from the latest response, the final trace is
cursor-chained. -/
theorem pagedLoopAux_chain {α Q : Type} (upstream : Nat → UpstreamResult α)
    (urlBase : String) (qInit : Q) (maxItems : Option Int) :
    ∀ (fuel : Nat) (acc : List α) (cur : Option String) (pageCount : Nat)
      (reqs : List (PageRequest Q)),
      pageCount = reqs.length →
      CursorChain upstream reqs →
      (∀ c0, cur = some c0 → 1 ≤ pageCount →
        ∃ b, upstream (pageCount - 1) = UpstreamResult.ok b ∧
          b.nextLink = some c0) →
      CursorChain upstream
        (pagedLoopAux upstream urlBase qInit maxItems fuel acc cur pageCount
          reqs).2 := by
  intro fuel
  induction fuel with
  | zero =>
    intro acc cur pageCount reqs hpc hchain hcur
    simpa [pagedLoopAux] using hchain
  | succ fuel ih =>
    intro acc cur pageCount reqs hpc hchain hcur
    match cur with
    | none => simpa [pagedLoopAux] using hchain
    | some c =>
      have hcur' : 1 ≤ reqs.length →
          ∃ b, upstream (reqs.length - 1) = UpstreamResult.ok b ∧
            b.nextLink = some c := by
        intro h1
        obtain ⟨b, hb, hl⟩ := hcur c rfl (by omega)
        rw [hpc] at hb
        exact ⟨b, hb, hl⟩
      simp only [pagedLoopAux]
      by_cases hc : c = ""
      · rw [if_pos hc]; exact hchain
      · rw [if_neg hc]
        by_cases hcap : capBlocked maxItems acc = true
        · rw [if_pos hcap]; exact hchain
        · rw [if_neg hcap]
          split
          · exact cursorChain_extend upstream reqs c _ hchain hcur'
          · exact cursorChain_extend upstream reqs c _ hchain hcur'
          · rename_i body heq
            split
            · exact cursorChain_extend upstream reqs c _ hchain hcur'
            · rename_i batch hbb
              split
              · exact cursorChain_extend upstream reqs c _ hchain hcur'
              · refine ih _ _ _ _ (by simp [hpc])
                  (cursorChain_extend upstream reqs c _ hchain hcur') ?_
                intro c0 hc0 _
                refine ⟨body, ?_, ?_⟩
                · simpa using heq
                · simpa using hc0

/-- Shape of a full run's request trace: either no request was issued, or
the first request is a GET on the start URL carrying the initial query
parameters and every later request carries none. -/
theorem sp_paged_request_trace_shape {α Q : Type}
    (upstream : Nat → UpstreamResult α) (urlBase : String) (qInit : Q)
    (maxItems : Option Int) (maxPages : Int) :
    (sp_paged_request upstream urlBase qInit maxItems maxPages).2 = [] ∨
    ∃ t, (sp_paged_request upstream urlBase qInit maxItems maxPages).2 =
        ⟨urlBase, some qInit⟩ :: t ∧ ∀ req ∈ t, req.params = none := by
  unfold sp_paged_request
  rcases hf : maxPages.toNat with _ | k
  · left; simp [pagedLoopAux]
  · simp only [pagedLoopAux]
    by_cases hu : urlBase = ""
    · rw [if_pos hu]; left; rfl
    · rw [if_neg hu]
      by_cases hcap : capBlocked maxItems ([] : List α) = true
      · rw [if_pos hcap]; left; rfl
      · rw [if_neg hcap]
        right
        have hp0 : pageParams qInit urlBase urlBase 0 = some qInit := by
          unfold pageParams
          rw [if_pos ⟨rfl, rfl⟩]
        split
        · exact ⟨[], by simp [hp0], by simp⟩
        · exact ⟨[], by simp [hp0], by simp⟩
        · rename_i body heq
          split
          · exact ⟨[], by simp [hp0], by simp⟩
          · rename_i batch hbb
            split
            · exact ⟨[], by simp [hp0], by simp⟩
            · obtain ⟨t, ht⟩ := pagedLoopAux_reqs_extend upstream urlBase
                qInit maxItems k (appendCapped maxItems [] batch)
                body.nextLink 1
                ([] ++ [⟨urlBase, pageParams qInit urlBase urlBase 0⟩])
              refine ⟨t, ?_, ?_⟩
              · rw [ht]; simp [hp0]
              · exact pagedLoopAux_ext_params_none upstream urlBase qInit
                  maxItems k _ _ 1 _ t (by omega) ht

/-! ## Header lemmas for the HTTP client -/

/-- Filtering out pairs keyed `k` does not change a lookup for `k' ≠ k`. -/
theorem find?_filter_ne (hs : List (String × String)) (k k' : String)
    (hne : k ≠ k') :
    (hs.filter (fun p => !(p.1 == k))).find? (fun p => p.1 == k') =
      hs.find? (fun p => p.1 == k') := by
  induction hs with
  | nil => rfl
  | cons a rest ih =>
    rw [List.filter_cons]
    by_cases hq : a.1 = k
    · have h1 : (!(a.1 == k)) = false := by simp [hq]
      have h2 : (a.1 == k') = false := by
        simp only [beq_eq_false_iff_ne, ne_eq]
        exact fun h => hne (hq.symm.trans h)
      rw [h1]
      simp only [Bool.false_eq_true, if_false]
      rw [ih, List.find?_cons_of_neg]
      simp [h2]
    · have h1 : (!(a.1 == k)) = true := by simp [hq]
      rw [h1, if_pos rfl]
      by_cases ha : a.1 = k'
      · rw [List.find?_cons_of_pos, List.find?_cons_of_pos] <;> simp [ha]
      · rw [List.find?_cons_of_neg, List.find?_cons_of_neg, ih] <;> simp [ha]

/-- Looking up the key just set yields the value just set. -/
theorem headerLookup_setHeader_self (hs : List (String × String))
    (k v : String) : headerLookup (setHeader hs k v) k = some v := by
  unfold headerLookup setHeader
  rw [List.find?_cons_of_pos] <;> simp

/-- Setting one key does not change the lookup of another. -/
theorem headerLookup_setHeader_other (hs : List (String × String))
    (k k' v : String) (hne : k ≠ k') :
    headerLookup (setHeader hs k v) k' = headerLookup hs k' := by
  unfold headerLookup setHeader
  rw [List.find?_cons_of_neg, find?_filter_ne hs k k' hne]
  simp [hne]

/-! ## Claim C1 -/

/-- C1, counterexample: the claim says a string containing `/` is never
returned unchanged as an assumed ID, but `"a!/b.txt"` contains `/` and both
resolvers return it unchanged, because the `'!' in s` disjunct of the
heuristic fires first. -/
theorem C1_counterexample :
    hasChar "a!/b.txt" '/' = true ∧
    get_item_id_from_path_if_needed noLookup "a!/b.txt" =
      ResolveOutcome.assumedId "a!/b.txt" ∧
    get_item_id_from_path_if_needed_sp noLookup "a!/b.txt" =
      ResolveOutcome.assumedId "a!/b.txt" :=
  ⟨by decide, rfl, rfl⟩

/-- C1, amended: for every input string that contains `/`, contains no `!`,
and does not start with `driveItem_`, both resolvers classify it as a path
and never return it unchanged as an assumed ID, whatever the metadata lookup
answers. -/
theorem C1_slash_resolves_as_path
    (lookupOd lookupSp : String → Option String) (s : String)
    (hslash : hasChar s '/' = true)
    (hbang : hasChar s '!' = false)
    (hdrive : "driveItem_".data.isPrefixOf s.data = false) :
    (∀ t, get_item_id_from_path_if_needed lookupOd s ≠
      ResolveOutcome.assumedId t) ∧
    (∀ t, get_item_id_from_path_if_needed_sp lookupSp s ≠
      ResolveOutcome.assumedId t) := by
  have hid : is_likely_id s = false := by
    simp [is_likely_id, hslash, hbang, hdrive]
  constructor <;> intro t <;>
    simp only [get_item_id_from_path_if_needed,
      get_item_id_from_path_if_needed_sp, hid, Bool.false_eq_true, if_false]
  · cases lookupOd s <;> simp
  · cases lookupSp s <;> simp

/-- C1 witness: concrete instance of the amended theorem. -/
theorem C1_slash_resolves_as_path_witness :
    get_item_id_from_path_if_needed noLookup "a/b.txt" ≠
      ResolveOutcome.assumedId "a/b.txt" :=
  (C1_slash_resolves_as_path noLookup noLookup "a/b.txt" (by decide)
    (by decide) (by decide)).1 "a/b.txt"

/-! ## Claim C9 -/

/-- C9: the dispatch endpoint never serves a status-"error" dict result with
a 2xx HTTP status (a 2xx `http_status` is coerced to 500), and always serves
a non-error dict result with a 2xx HTTP status (a non-2xx `http_status` is
coerced to 200). -/
theorem C9_dispatch_status_normalization (r : HandlerResult) :
    (r.status = some "error" →
      ¬(200 ≤ normalize_http_status r ∧ normalize_http_status r < 300)) ∧
    (r.status ≠ some "error" →
      200 ≤ normalize_http_status r ∧ normalize_http_status r < 300) ∧
    (r.status = some "error" → 200 ≤ r.http_status.getD 500 →
      r.http_status.getD 500 < 300 → normalize_http_status r = 500) ∧
    (r.status ≠ some "error" →
      ¬(200 ≤ r.http_status.getD 200 ∧ r.http_status.getD 200 < 300) →
      normalize_http_status r = 200) := by
  refine ⟨fun h => ?_, fun h => ?_, fun h h1 h2 => ?_, fun h hc => ?_⟩
  · simp only [normalize_http_status, if_pos h]
    by_cases hc : 200 ≤ r.http_status.getD 500 ∧ r.http_status.getD 500 < 300
    · rw [if_pos hc]; omega
    · rw [if_neg hc]; exact hc
  · simp only [normalize_http_status, if_neg h]
    by_cases hc : 200 ≤ r.http_status.getD 200 ∧ r.http_status.getD 200 < 300
    · rw [if_pos hc]; exact hc
    · rw [if_neg hc]; omega
  · simp only [normalize_http_status, if_pos h]
    rw [if_pos ⟨h1, h2⟩]
  · simp only [normalize_http_status, if_neg h]
    rw [if_neg hc]

/-- C9 witness: an error result claiming HTTP 204 is served as 500. -/
theorem C9_dispatch_status_normalization_witness :
    ¬(200 ≤ normalize_http_status ⟨some "error", some 204⟩ ∧
      normalize_http_status ⟨some "error", some 204⟩ < 300) :=
  (C9_dispatch_status_normalization ⟨some "error", some 204⟩).1 rfl

/-! ## Claim C10 -/

/-- C10: `AuthenticatedHttpClient.request` never issues an unauthenticated
request: when no access token is obtained (in particular for an empty scope
list) it raises `ValueError` and nothing is sent; every request that is sent
carries an `Authorization: Bearer token` header. -/
theorem C10_request_always_authenticated
    (getToken : List String → Option String) (scope : List String)
    (callerHeaders : List (String × String)) (hasBody : Bool) :
    (get_access_token getToken scope = none →
      client_request getToken scope callerHeaders hasBody =
        RequestOutcome.valueErrorRaised) ∧
    (scope = [] →
      client_request getToken scope callerHeaders hasBody =
        RequestOutcome.valueErrorRaised) ∧
    (∀ hs, client_request getToken scope callerHeaders hasBody =
        RequestOutcome.sent hs →
      ∃ tok, get_access_token getToken scope = some tok ∧ tok ≠ "" ∧
        headerLookup hs "Authorization" = some ("Bearer " ++ tok)) := by
  cases htok : get_access_token getToken scope with
  | none =>
    refine ⟨fun _ => ?_, fun _ => ?_, fun hs h => ?_⟩
    · simp [client_request, htok]
    · simp [client_request, htok]
    · simp only [client_request, htok] at h
      exact absurd h (by simp)
  | some tok =>
    refine ⟨fun h => ?_, fun hsc => ?_, fun hs h => ?_⟩
    · exact absurd h (by simp)
    · subst hsc; simp [get_access_token] at htok
    · simp only [client_request, htok] at h
      by_cases he : tok = ""
      · rw [if_pos he] at h; exact absurd h (by simp)
      · rw [if_neg he] at h
        refine ⟨tok, rfl, he, ?_⟩
        by_cases hb : (hasBody && (headerLookup (setHeader callerHeaders
            "Authorization" ("Bearer " ++ tok)) "Content-Type").isNone) = true
        · rw [if_pos hb] at h
          cases h
          rw [headerLookup_setHeader_other _ _ _ _ (by decide),
            headerLookup_setHeader_self]
        · rw [if_neg hb] at h
          cases h
          rw [headerLookup_setHeader_self]

/-- C10 witness: an empty scope list raises before anything is sent. -/
theorem C10_request_always_authenticated_witness :
    client_request someTokenProvider [] [] false =
      RequestOutcome.valueErrorRaised :=
  (C10_request_always_authenticated someTokenProvider [] [] false).2.1 rfl

/-! ## Claim C2 -/

/-- C2: for every bounded item cap `N` (`max_items_total = N`, a count, so
nonnegative) and every upstream, the paginated-fetch helpers return an item
list of length at most `N`, regardless of how many items each upstream page
contains (SharePoint and OneDrive helpers). -/
theorem C2_item_cap {α Q : Type}
    (upstreamSp upstreamOd : Nat → UpstreamResult α) (urlSp urlOd : String)
    (qSp qOd : Q) (n m maxPagesSp maxPagesOd : Int)
    (hn : 0 ≤ n) (hm : 0 ≤ m) :
    (((sp_paged_request upstreamSp urlSp qSp (some n)
      maxPagesSp).1.items.length : Int)) ≤ n ∧
    (((onedrive_paged_request upstreamOd urlOd qOd m
      maxPagesOd).1.items.length : Int)) ≤ m := by
  constructor
  · rw [sp_paged_request_def]
    exact pagedLoopAux_items_le upstreamSp urlSp qSp n maxPagesSp.toNat []
      (some urlSp) 0 [] (by simpa using hn)
  · rw [onedrive_paged_request_def]
    exact pagedLoopAux_items_le upstreamOd urlOd qOd m maxPagesOd.toNat []
      (some urlOd) 0 [] (by simpa using hm)

/-- C2 witness: a 3-item upstream page against a cap of 2. -/
theorem C2_item_cap_witness :
    (((sp_paged_request upstreamOnePage "u" (0 : Nat) (some 2)
      20).1.items.length : Int)) ≤ 2 ∧
    (((onedrive_paged_request upstreamOnePage "u" (0 : Nat) 2
      20).1.items.length : Int)) ≤ 2 :=
  C2_item_cap upstreamOnePage upstreamOnePage "u" "u" 0 0 2 2 20 20
    (by decide) (by decide)

/-! ## Claim C3 -/

/-- C3: for every page cap `P` (the `MAX_PAGING_PAGES` setting, positive per
the spec, so nonnegative here) and every upstream, the pagination loop
terminates (it is a total function of a fuel that equals the page budget),
issues at most `P` GET requests — exactly one per processed page — and
returns `pages_processed ≤ P` (SharePoint and email helpers). -/
theorem C3_page_cap {α Q : Type}
    (upstreamSp upstreamEm : Nat → UpstreamResult α) (urlSp urlEm : String)
    (qSp qEm : Q) (miSp miEm : Option Int) (p : Int) (hp : 0 ≤ p) :
    (((sp_paged_request upstreamSp urlSp qSp miSp p).2.length : Int)) ≤ p ∧
    (((sp_paged_request upstreamSp urlSp qSp miSp p).1.pages : Int)) ≤ p ∧
    (∀ its tot pg, (sp_paged_request upstreamSp urlSp qSp miSp p).1 =
        PagedResult.success its tot pg →
      (sp_paged_request upstreamSp urlSp qSp miSp p).2.length = pg) ∧
    (((email_paged_request upstreamEm urlEm qEm miEm p).2.length : Int)) ≤ p ∧
    (((email_paged_request upstreamEm urlEm qEm miEm p).1.pages : Int)) ≤ p := by
  have h1 := pagedLoopAux_bounds upstreamSp urlSp qSp miSp p.toNat []
    (some urlSp) 0 []
  have h2 := pagedLoopAux_bounds upstreamEm urlEm qEm miEm p.toNat []
    (some urlEm) 0 []
  simp only [List.length_nil, Nat.zero_add] at h1 h2
  refine ⟨?_, ?_, ?_, ?_, ?_⟩
  · rw [sp_paged_request_def]
    have := h1.1
    omega
  · rw [sp_paged_request_def]
    have := h1.2
    omega
  · intro its tot pg hpg
    rw [sp_paged_request_def] at hpg ⊢
    exact pagedLoopAux_reqs_eq_pages upstreamSp urlSp qSp miSp p.toNat []
      (some urlSp) 0 [] rfl its tot pg hpg
  · rw [email_paged_request_def]
    have := h2.1
    omega
  · rw [email_paged_request_def]
    have := h2.2
    omega

/-- C3 witness: a concrete run stays within a page cap of 20. -/
theorem C3_page_cap_witness :
    (((sp_paged_request upstreamOnePage "u" (0 : Nat) none
      20).2.length : Int)) ≤ 20 :=
  (C3_page_cap upstreamOnePage upstreamOnePage "u" "u" 0 0 none none 20
    (by decide)).1

/-! ## Claim C4 -/

/-- C4: if the first upstream response carries no `@odata.nextLink` cursor
(and the start URL is truthy, the caps allow a first request, and the
request parses), the helpers stop after exactly one GET — the start URL
with the initial parameters — and return success with
`pages_processed = 1` and the items of that single page subject to the item
cap: all of them when unbounded, the first `N` when capped at `N`. -/
theorem C4_no_cursor_single_request {α Q : Type}
    (upstream : Nat → UpstreamResult α) (urlBase : String) (qInit : Q)
    (maxItems : Option Int) (maxPages : Int) (body : PageBody α)
    (hurl : urlBase ≠ "")
    (hcap : capBlocked maxItems ([] : List α) = false)
    (hpages : 1 ≤ maxPages)
    (hresp : upstream 0 = UpstreamResult.ok body)
    (hnolink : urlTruthy body.nextLink = false) :
    sp_paged_request upstream urlBase qInit maxItems maxPages =
      (PagedResult.success (firstPageItems maxItems body)
        (firstPageItems maxItems body).length 1,
       [⟨urlBase, some qInit⟩]) ∧
    (∀ n batch, maxItems = some n → bodyBatch body = ValueField.items batch →
      firstPageItems maxItems body = batch.take n.toNat) ∧
    (∀ batch, maxItems = none → bodyBatch body = ValueField.items batch →
      firstPageItems maxItems body = batch) := by
  have hp0 : pageParams qInit urlBase urlBase 0 = some qInit := by
    unfold pageParams
    rw [if_pos ⟨rfl, rfl⟩]
  refine ⟨?_, ?_, ?_⟩
  · rw [sp_paged_request_def]
    obtain ⟨k, hk⟩ : ∃ k, maxPages.toNat = k + 1 :=
      ⟨maxPages.toNat - 1, by omega⟩
    rw [hk]
    simp only [pagedLoopAux]
    rw [if_neg hurl, if_neg (by simp [hcap])]
    split
    · rename_i st d heq
      rw [hresp] at heq
      simp at heq
    · rename_i d heq
      rw [hresp] at heq
      simp at heq
    · rename_i body2 heq
      rw [hresp] at heq
      obtain rfl : body = body2 := by simpa using heq
      split
      · rename_i hbb
        unfold firstPageItems
        rw [hbb, hp0]
        simp
      · rename_i batch hbb
        rw [if_pos (by simp [hnolink])]
        unfold firstPageItems
        rw [hbb, hp0]
        simp
  · intro n batch hmi hbb
    subst hmi
    unfold firstPageItems
    rw [hbb]
    exact appendCapped_nil_take n batch
  · intro batch hmi hbb
    subst hmi
    unfold firstPageItems
    rw [hbb]
    exact appendCapped_none batch []

/-- C4 witness: a single 3-item page, no cursor, cap 5. -/
theorem C4_no_cursor_single_request_witness :
    sp_paged_request upstreamOnePage "u" (9 : Nat) (some 5) 20 =
      (PagedResult.success
        (firstPageItems (some 5)
          (⟨some (ValueField.items [1, 2, 3]), none⟩ : PageBody Nat))
        (firstPageItems (some 5)
          (⟨some (ValueField.items [1, 2, 3]), none⟩ : PageBody Nat)).length 1,
       [⟨"u", some 9⟩]) :=
  (C4_no_cursor_single_request upstreamOnePage "u" 9 (some 5) 20
    ⟨some (ValueField.items [1, 2, 3]), none⟩ (by decide) (by decide)
    (by decide) rfl rfl).1

/-! ## Claim C5 -/

/-- C5: if an upstream response's `value` field is present but not a list,
the loop stops without an error result: the helpers return a success
envelope containing exactly the items accumulated from the previous pages
(`acc`), with the malformed page still counted in `pages_processed` and its
request recorded. -/
theorem C5_nonlist_value_success {α Q : Type}
    (upstream : Nat → UpstreamResult α) (urlBase : String) (qInit : Q)
    (maxItems : Option Int) (fuel : Nat) (acc : List α) (c : String)
    (pageCount : Nat) (reqs : List (PageRequest Q)) (body : PageBody α)
    (hc : c ≠ "") (hcap : capBlocked maxItems acc = false)
    (hresp : upstream pageCount = UpstreamResult.ok body)
    (hval : bodyBatch body = ValueField.notList) :
    pagedLoopAux upstream urlBase qInit maxItems (fuel + 1) acc (some c)
        pageCount reqs =
      (PagedResult.success acc acc.length (pageCount + 1),
       reqs ++ [⟨c, pageParams qInit urlBase c pageCount⟩]) := by
  simp only [pagedLoopAux]
  rw [if_neg hc, if_neg (by simp [hcap])]
  split
  · rename_i st d heq
    rw [hresp] at heq
    simp at heq
  · rename_i d heq
    rw [hresp] at heq
    simp at heq
  · rename_i body2 heq
    rw [hresp] at heq
    obtain rfl : body = body2 := by simpa using heq
    split
    · rfl
    · rename_i batch hbb
      rw [hval] at hbb
      simp at hbb

/-- C5 witness: a non-list `value` on page 2 returns the page-1 items. -/
theorem C5_nonlist_value_success_witness :
    pagedLoopAux upstreamNotList "u1" (0 : Nat) none (5 + 1) [10] (some "u2")
        1 [⟨"u1", some 0⟩] =
      (PagedResult.success [10] 1 2,
       [⟨"u1", some 0⟩] ++ [⟨"u2", pageParams 0 "u1" "u2" 1⟩]) :=
  C5_nonlist_value_success upstreamNotList "u1" 0 none 5 [10] "u2" 1
    [⟨"u1", some 0⟩] ⟨some ValueField.notList, some "next"⟩ (by decide) rfl
    rfl rfl

/-! ## Claim C6 -/

/-- C6, counterexample: the claim says that when a response body has no
`value` field the loop stops and issues no further requests even if a
cursor is present; but on such a response the code defaults the batch to
the empty list and follows the cursor: here the first response has no
`value` field and cursor "u2", and a second request to "u2" is issued,
with the run processing two pages. -/
theorem C6_counterexample :
    (sp_paged_request upstreamNoValueField "u1" (0 : Nat) none 20).2 =
      [⟨"u1", some 0⟩, ⟨"u2", none⟩] ∧
    (sp_paged_request upstreamNoValueField "u1" (0 : Nat) none 20).1 =
      PagedResult.success [7] 1 2 :=
  ⟨rfl, rfl⟩

/-- C6, amended: if an upstream response body has no `value` field, the
loop treats the batch as empty and does not stop: when the response carries
a truthy `@odata.nextLink` and the caps are not reached, the loop continues
from that cursor and issues a further request to it (the loop stops early
only on a `value` that is present but not a list). -/
theorem C6_absent_value_continues {α Q : Type}
    (upstream : Nat → UpstreamResult α) (urlBase : String) (qInit : Q)
    (maxItems : Option Int) (fuel : Nat) (acc : List α) (c nl : String)
    (pageCount : Nat) (reqs : List (PageRequest Q)) (body : PageBody α)
    (hc : c ≠ "") (hcap : capBlocked maxItems acc = false)
    (hresp : upstream pageCount = UpstreamResult.ok body)
    (hval : body.value = none)
    (hnl : body.nextLink = some nl) (hnl2 : nl ≠ "") :
    pagedLoopAux upstream urlBase qInit maxItems (fuel + 1 + 1) acc (some c)
        pageCount reqs =
      pagedLoopAux upstream urlBase qInit maxItems (fuel + 1) acc (some nl)
        (pageCount + 1)
        (reqs ++ [⟨c, pageParams qInit urlBase c pageCount⟩]) ∧
    (∃ ps rest,
      (pagedLoopAux upstream urlBase qInit maxItems (fuel + 1 + 1) acc
        (some c) pageCount reqs).2 =
      (reqs ++ [⟨c, pageParams qInit urlBase c pageCount⟩]) ++
        ⟨nl, ps⟩ :: rest) := by
  have hbb0 : bodyBatch body = ValueField.items [] := by
    simp [bodyBatch, hval]
  have hacc : appendCapped maxItems acc [] = acc := by
    cases maxItems <;> rfl
  have hmain : pagedLoopAux upstream urlBase qInit maxItems (fuel + 1 + 1)
      acc (some c) pageCount reqs =
      pagedLoopAux upstream urlBase qInit maxItems (fuel + 1) acc (some nl)
        (pageCount + 1)
        (reqs ++ [⟨c, pageParams qInit urlBase c pageCount⟩]) := by
    conv_lhs => rw [pagedLoopAux]
    rw [if_neg hc, if_neg (by simp [hcap])]
    split
    · rename_i st d heq
      rw [hresp] at heq
      simp at heq
    · rename_i d heq
      rw [hresp] at heq
      simp at heq
    · rename_i body2 heq
      rw [hresp] at heq
      obtain rfl : body = body2 := by simpa using heq
      split
      · rename_i hbb
        rw [hbb0] at hbb
        simp at hbb
      · rename_i batch hbb
        rw [hbb0] at hbb
        obtain rfl : batch = ([] : List α) := by simpa using hbb.symm
        rw [if_neg (by simp [urlTruthy, hnl, hnl2, hacc, hcap])]
        rw [hacc, hnl]
  refine ⟨hmain, ?_⟩
  rw [hmain]
  obtain ⟨rest, hrest⟩ := pagedLoopAux_issues_request upstream urlBase qInit
    maxItems fuel acc nl (pageCount + 1)
    (reqs ++ [⟨c, pageParams qInit urlBase c pageCount⟩]) hnl2 hcap
  exact ⟨pageParams qInit urlBase nl (pageCount + 1), rest, hrest⟩

/-- C6 amended witness: concrete instance of the continuation step. -/
theorem C6_absent_value_continues_witness :
    pagedLoopAux upstreamNoValueField "u1" (0 : Nat) none (3 + 1 + 1) []
        (some "u1") 0 [] =
      pagedLoopAux upstreamNoValueField "u1" (0 : Nat) none (3 + 1) []
        (some "u2") 1 [⟨"u1", pageParams 0 "u1" "u1" 0⟩] :=
  (C6_absent_value_continues upstreamNoValueField "u1" 0 none 3 [] "u1" "u2"
    0 [] ⟨none, some "u2"⟩ (by decide) rfl rfl rfl rfl (by decide)).1

/-! ## Claim C7 -/

/-- C7: the initial query parameters are attached only to the very first
GET of a run (page 1 against the start URL); every subsequent request uses
the server-returned cursor URL verbatim and carries `params = None`. -/
theorem C7_params_only_first_request {α Q : Type}
    (upstream : Nat → UpstreamResult α) (urlBase : String) (qInit : Q)
    (maxItems : Option Int) (maxPages : Int) :
    (∀ req0,
      (sp_paged_request upstream urlBase qInit maxItems maxPages).2.head? =
        some req0 → req0.url = urlBase ∧ req0.params = some qInit) ∧
    (∀ req ∈
      (sp_paged_request upstream urlBase qInit maxItems maxPages).2.tail,
      req.params = none) ∧
    CursorChain upstream
      (sp_paged_request upstream urlBase qInit maxItems maxPages).2 := by
  refine ⟨?_, ?_, ?_⟩
  · intro req0 h0
    rcases sp_paged_request_trace_shape upstream urlBase qInit maxItems
      maxPages with hsh | ⟨t, hsh, hps⟩
    · rw [hsh] at h0
      simp at h0
    · rw [hsh] at h0
      simp only [List.head?_cons, Option.some.injEq] at h0
      subst h0
      exact ⟨rfl, rfl⟩
  · intro req hreq
    rcases sp_paged_request_trace_shape upstream urlBase qInit maxItems
      maxPages with hsh | ⟨t, hsh, hps⟩
    · rw [hsh] at hreq
      simp at hreq
    · rw [hsh] at hreq
      exact hps req (by simpa using hreq)
  · rw [sp_paged_request_def]
    refine pagedLoopAux_chain upstream urlBase qInit maxItems maxPages.toNat
      [] (some urlBase) 0 [] rfl ?_ ?_
    · intro i req2 hget
      simp at hget
    · intro c0 hc0 h1
      exact absurd h1 (by decide)

/-- C7 witness: the single request of a one-page run is the start URL with
the initial parameters. -/
theorem C7_params_only_first_request_witness :
    (PageRequest.mk "u" (some (5 : Nat))).url = "u" ∧
    (PageRequest.mk "u" (some (5 : Nat))).params = some 5 :=
  (C7_params_only_first_request upstreamOnePage "u" 5 none 20).1
    ⟨"u", some 5⟩ rfl

/-! ## Claim C8 -/

/-- C8: a request that raises a transport error or a non-2xx HTTP error
aborts the loop immediately with no retry: the trace ends at the failing
request, and the helper returns the structured error envelope (status
"error", upstream HTTP status code — 500 for transport errors — and
upstream message) carrying no item list. -/
theorem C8_error_aborts {α Q : Type} (upstream : Nat → UpstreamResult α)
    (urlBase : String) (qInit : Q) (maxItems : Option Int) (fuel : Nat)
    (acc : List α) (c : String) (pageCount : Nat)
    (reqs : List (PageRequest Q)) (st : Int) (d : String)
    (hc : c ≠ "") (hcap : capBlocked maxItems acc = false) :
    (upstream pageCount = UpstreamResult.httpError st d →
      pagedLoopAux upstream urlBase qInit maxItems (fuel + 1) acc (some c)
          pageCount reqs =
        (PagedResult.error st d,
         reqs ++ [⟨c, pageParams qInit urlBase c pageCount⟩])) ∧
    (upstream pageCount = UpstreamResult.transportError d →
      pagedLoopAux upstream urlBase qInit maxItems (fuel + 1) acc (some c)
          pageCount reqs =
        (PagedResult.error 500 d,
         reqs ++ [⟨c, pageParams qInit urlBase c pageCount⟩])) ∧
    (PagedResult.error st d : PagedResult α).items = [] := by
  refine ⟨fun hresp => ?_, fun hresp => ?_, rfl⟩
  · simp only [pagedLoopAux]
    rw [if_neg hc, if_neg (by simp [hcap])]
    split
    · rename_i st2 d2 heq
      rw [hresp] at heq
      obtain ⟨rfl, rfl⟩ : st2 = st ∧ d2 = d := by
        simpa using heq.symm
      rfl
    · rename_i d2 heq
      rw [hresp] at heq
      simp at heq
    · rename_i body heq
      rw [hresp] at heq
      simp at heq
  · simp only [pagedLoopAux]
    rw [if_neg hc, if_neg (by simp [hcap])]
    split
    · rename_i st2 d2 heq
      rw [hresp] at heq
      simp at heq
    · rename_i d2 heq
      rw [hresp] at heq
      obtain rfl : d2 = d := by simpa using heq.symm
      rfl
    · rename_i body heq
      rw [hresp] at heq
      simp at heq

/-- C8 witness: an HTTP 403 on the first request aborts the run. -/
theorem C8_error_aborts_witness :
    pagedLoopAux upstreamDenied "u" (0 : Nat) none (19 + 1) [] (some "u") 0
        [] =
      (PagedResult.error 403 "Access denied",
       [] ++ [⟨"u", pageParams 0 "u" "u" 0⟩]) :=
  (C8_error_aborts upstreamDenied "u" 0 none 19 [] "u" 0 [] 403
    "Access denied" (by decide) rfl).1 rfl

end DynamisApi
